import Mathlib

/-!
Verification of the import command orchestration of the stitch-cli repository
(`commands/import.go`).  The command `Run` validates the strategy flag and then
runs `importApp`, which sequences: session check, local declaration loading,
remote application lookup (with an interactive creation flow when the app is
not found), optional hosting-asset preparation, remote configuration diffing
with interactive confirmation, the configuration push, hosting-asset
application, and a post-apply export/write-back re-sync.

The embedding makes every external collaborator call explicit: an `Env` record
carries the outcome each call would produce, and `importApp` folds the Go
control flow over it, returning the Go function's returned error (`ret`), the
ordered trace of collaborator calls (`events`), the `UI.Info` lines (`infos`)
and the `UI.Error` lines (`uiErrors`) it emitted, and the final value of the
`assetMetadataDiffs` variable (`assetDiffs`).
-/

namespace Stitch

/-- Constant `importStrategyMerge` from `commands/import.go`. -/
def importStrategyMerge : String := "merge"

/-- Constant `importStrategyReplace` from `commands/import.go`. -/
def importStrategyReplace : String := "replace"

/-- The fields of `models.App` that `importApp` reads. -/
structure App where
  GroupID : String
  ID : String
  ClientAppID : String
  Name : String
deriving DecidableEq

/-- Outcome of `fetchAppByClientAppID`: an app, `api.ErrAppNotFound`, or any
other error (returned as-is by `importApp`). -/
inductive FetchOutcome where
  | found (a : App)
  | notFound
  | otherFailure (e : String)
deriving DecidableEq

/-- Outcome of the `askCreateEmptyApp` call: the creation yes/no prompt
errored, the user declined, a later step of the creation flow failed, or
`CreateEmptyApp` produced a new app. -/
inductive CreateFlow where
  | askFailure (e : String)
  | declined
  | stepFailure (e : String)
  | created (a : App)
deriving DecidableEq

/-- Outcome of `hosting.CacheFileToAssetCache`: loaded, the file does not
exist (`os.IsNotExist`, replaced by a fresh empty cache), or another error. -/
inductive CacheLoad where
  | loaded
  | notExist
  | failure (e : String)
deriving DecidableEq

/-- Outcome of the `stitchClient.Diff` call. -/
inductive DiffOutcome where
  | ok (lines : List String)
  | failure (e : String)
deriving DecidableEq

/-- Outcome of the `AskYesNo` confirmation of the shown diff. -/
inductive ConfirmOutcome where
  | answered (b : Bool)
  | failure (e : String)
deriving DecidableEq

/-- Flag values of the import command after flag parsing
(`flagAppID`, `flagAppPath`, ..., plus the base command's `flagYes`). -/
structure Flags where
  appID : String
  appPath : String
  groupID : String
  appName : String
  strategy : String
  includeHosting : Bool
  resetCDNCache : Bool
  yes : Bool
deriving DecidableEq

/-- Default applied by `flags.StringVar` for the `--strategy` flag: an omitted
flag yields `importStrategyMerge`. -/
def parseStrategy (given : Option String) : String :=
  given.getD importStrategyMerge

/-- Outcomes of every external collaborator call `importApp` can make, in
program order.  `none` / `Except.ok` means the call succeeds; a carried string
is the collaborator's error message. -/
structure Env where
  userErr : Option String
  loggedIn : Bool
  appDirErr : Option String
  instanceErr : Option String
  unmarshalErr : Option String
  marshalErr : Option String
  clientErr : Option String
  fetch : FetchOutcome
  createFlow : CreateFlow
  writeCfgErr : Option String
  absErr : Option String
  rootDir : String
  metadataErr : Option String
  cachePathErr : Option String
  cacheLoad : CacheLoad
  localMetaErr : Option String
  cacheDirty : Bool
  cacheWriteErr : Option String
  listAssetsErr : Option String
  assetDiffLines : List String
  remoteDiffRes : DiffOutcome
  confirmAns : ConfirmOutcome
  importErr : Option String
  importHostingErr : Option String
  exportErr : Option String
  writeDirErr : Option String
deriving DecidableEq

/-- Observable steps of a run, in the order `importApp` performs them. -/
inductive Event where
  | userCheck
  | loadDecl
  | fetchApp
  | askCreate
  | createApp
  | writeAppConfig
  | cacheRead
  | localHash
  | cacheWrite
  | listAssets
  | assetDiff (merge : Bool)
  | remoteDiff
  | askConfirm
  | push (strategy : String)
  | applyAssets
  | exportApp
  | writeDir
deriving DecidableEq

/-- The distinct error values `importApp` can return, one constructor per
`return err` site, carrying the collaborator's message. -/
inductive ImportError where
  | userFailure (e : String)
  | notLoggedIn
  | appDirFailure (e : String)
  | instanceFailure (e : String)
  | unmarshalFailure (e : String)
  | marshalFailure (e : String)
  | clientFailure (e : String)
  | fetchFailure (e : String)
  | appCreateAskFailure (e : String)
  | appCreateStepFailure (e : String)
  | createAppSyncFailure (e : String)
  | absFailure (e : String)
  | includeHostingFailure (e : String)
  | cachePathFailure (e : String)
  | cacheLoadFailure (e : String)
  | diffFailure (e : String)
  | confirmAskFailure (e : String)
  | importFailure (e : String)
  | importHostingFailure (e : String)
  | importAppSyncFailure (e : String)
deriving DecidableEq

/-- The message of each returned error, mirroring the `fmt.Errorf` format
strings of `commands/import.go` (`errCreateAppSyncFailure`,
`errImportAppSyncFailure`, `errIncludeHosting`, and the inline formats).
Errors returned raw keep the collaborator's message; the text of
`u.ErrNotLoggedIn` is defined outside the sources embedded here, so its text
is a placeholder that no claim depends on. -/
def message : ImportError → String
  | .userFailure e => e
  | .notLoggedIn => "not logged in"
  | .appDirFailure e => e
  | .instanceFailure e => e
  | .unmarshalFailure e => e
  | .marshalFailure e => e
  | .clientFailure e => e
  | .fetchFailure e => e
  | .appCreateAskFailure e => e
  | .appCreateStepFailure e => e
  | .createAppSyncFailure e => "failed to sync app with local directory after creation: " ++ e
  | .absFailure e => e
  | .includeHostingFailure e => "--include-hosting error: " ++ e
  | .cachePathFailure e => e
  | .cacheLoadFailure e => e
  | .diffFailure e => "failed to diff app with currently deployed instance: " ++ e
  | .confirmAskFailure e => e
  | .importFailure e => "failed to import app: " ++ e
  | .importHostingFailure e => "failed to import hosting assets " ++ e
  | .importAppSyncFailure e => "failed to sync app with local directory after import: " ++ e

/-- Result of a run of `importApp`: the returned error (`none` = `nil`), the
trace of collaborator calls, the `UI.Info` and `UI.Error` lines, and the final
value of the `assetMetadataDiffs` local (`none` = Go `nil`). -/
structure RunResult where
  ret : Option ImportError
  events : List Event
  infos : List String
  uiErrors : List String
  assetDiffs : Option (List String)
deriving DecidableEq

/-- State carried out of the resolution phase of `importApp` (everything
before the hosting block): the `skipDiff` local, the possibly overridden
`flagStrategy`, the resolved app, and the trace so far. -/
structure StResolve where
  skipDiff : Bool
  strategy : String
  app : App
  ev : List Event
  infos : List String
deriving DecidableEq

/-- State after the hosting block: resolution state plus the
`assetMetadataDiffs` value and any `UI.Error` lines emitted so far. -/
structure StHosting where
  skipDiff : Bool
  strategy : String
  app : App
  assetDiffs : Option (List String)
  ev : List Event
  infos : List String
  uiErrors : List String
deriving DecidableEq

/-- Lines 157-227 of `commands/import.go`: session check, directory and
instance-data resolution, declaration decode and marshal, client creation,
remote lookup, and the not-found creation flow that forces `skipDiff` and the
`replace` strategy. -/
def phaseResolve (fl : Flags) (env : Env) : Sum RunResult StResolve :=
  match env.userErr with
  | some e => .inl ⟨some (.userFailure e), [.userCheck], [], [], none⟩
  | none =>
  if !env.loggedIn then .inl ⟨some .notLoggedIn, [.userCheck], [], [], none⟩
  else
  match env.appDirErr with
  | some e => .inl ⟨some (.appDirFailure e), [.userCheck], [], [], none⟩
  | none =>
  match env.instanceErr with
  | some e => .inl ⟨some (.instanceFailure e), [.userCheck], [], [], none⟩
  | none =>
  match env.unmarshalErr with
  | some e => .inl ⟨some (.unmarshalFailure e), [.userCheck, .loadDecl], [], [], none⟩
  | none =>
  match env.marshalErr with
  | some e => .inl ⟨some (.marshalFailure e), [.userCheck, .loadDecl], [], [], none⟩
  | none =>
  match env.clientErr with
  | some e => .inl ⟨some (.clientFailure e), [.userCheck, .loadDecl], [], [], none⟩
  | none =>
  match env.fetch with
  | .otherFailure e => .inl ⟨some (.fetchFailure e), [.userCheck, .loadDecl, .fetchApp], [], [], none⟩
  | .found a => .inr ⟨false, fl.strategy, a, [.userCheck, .loadDecl, .fetchApp], []⟩
  | .notFound =>
    match env.createFlow with
    | .askFailure e =>
        .inl ⟨some (.appCreateAskFailure e), [.userCheck, .loadDecl, .fetchApp, .askCreate], [], [], none⟩
    | .declined =>
        .inl ⟨none, [.userCheck, .loadDecl, .fetchApp, .askCreate], [], [], none⟩
    | .stepFailure e =>
        .inl ⟨some (.appCreateStepFailure e), [.userCheck, .loadDecl, .fetchApp, .askCreate], [], [], none⟩
    | .created a =>
      match env.writeCfgErr with
      | some e =>
          .inl ⟨some (.createAppSyncFailure e),
            [.userCheck, .loadDecl, .fetchApp, .askCreate, .createApp, .writeAppConfig],
            ["New app created: " ++ a.ClientAppID], [], none⟩
      | none =>
          .inr ⟨true, importStrategyReplace, a,
            [.userCheck, .loadDecl, .fetchApp, .askCreate, .createApp, .writeAppConfig],
            ["New app created: " ++ a.ClientAppID]⟩

/-- The `UI.Error` lines emitted by the dirty-cache write of lines 260-264:
a failed `UpdateCacheFile` is reported to the UI only. -/
def cacheWriteUi (env : Env) : List String :=
  match env.cacheWriteErr with
  | some e => [e]
  | none => []

/-- Lines 266-272 of `commands/import.go`: the continuation after the
dirty-cache write — remote asset listing and `DiffAssetMetadata`.  `ev2` is
the trace so far and `uiErrs` the `UI.Error` lines emitted by a failed cache
write. -/
def phaseHostTail (env : Env) (st : StResolve) (ev2 : List Event) (uiErrs : List String) :
    Sum RunResult StHosting :=
  match env.listAssetsErr with
  | some e =>
      .inl ⟨some (.includeHostingFailure ("error retrieving remote assets: " ++ e)),
        ev2 ++ [.listAssets], st.infos, uiErrs, none⟩
  | none =>
      .inr ⟨st.skipDiff, st.strategy, st.app, some env.assetDiffLines,
        ev2 ++ [.listAssets, .assetDiff (st.strategy == importStrategyMerge)],
        st.infos, uiErrs⟩

/-- Lines 229-272 of `commands/import.go`: the unconditional `filepath.Abs`
for the hosting root, then, only when `--include-hosting` is set, the asset
descriptions load, cache path/load, local hashing, immediate dirty-cache
write (whose failure only goes to `UI.Error`), then `phaseHostTail`. -/
def phaseHosting (fl : Flags) (env : Env) (st : StResolve) : Sum RunResult StHosting :=
  match env.absErr with
  | some e => .inl ⟨some (.absFailure e), st.ev, st.infos, [], none⟩
  | none =>
  if !fl.includeHosting then
    .inr ⟨st.skipDiff, st.strategy, st.app, none, st.ev, st.infos, []⟩
  else
  match env.metadataErr with
  | some e =>
      .inl ⟨some (.includeHostingFailure ("error loading metadata.json file: " ++ e)),
        st.ev, st.infos, [], none⟩
  | none =>
  match env.cachePathErr with
  | some e => .inl ⟨some (.cachePathFailure e), st.ev, st.infos, [], none⟩
  | none =>
  match env.cacheLoad with
  | .failure e => .inl ⟨some (.cacheLoadFailure e), st.ev ++ [.cacheRead], st.infos, [], none⟩
  | _ =>
  match env.localMetaErr with
  | some e =>
      .inl ⟨some (.includeHostingFailure
          ("error processing local assets " ++ env.rootDir ++ ": " ++ e)),
        st.ev ++ [.cacheRead, .localHash], st.infos, [], none⟩
  | none =>
  if env.cacheDirty then
    phaseHostTail env st (st.ev ++ [.cacheRead, .localHash, .cacheWrite]) (cacheWriteUi env)
  else
    phaseHostTail env st (st.ev ++ [.cacheRead, .localHash]) []

/-- Lines 274-304 of `commands/import.go`: unless `-y` or `skipDiff`, run the
remote configuration diff, merge in the hosting diff lines when requested,
finish with a no-op notice on an empty combined diff, otherwise print the
diff and ask for confirmation; declining returns `nil`. -/
def phaseDiff (fl : Flags) (env : Env) (st : StHosting) : Sum RunResult StHosting :=
  if !fl.yes && !st.skipDiff then
    match env.remoteDiffRes with
    | .failure e =>
        .inl ⟨some (.diffFailure e), st.ev ++ [.remoteDiff], st.infos, st.uiErrors, st.assetDiffs⟩
    | .ok ds =>
      let hostingLines : List String :=
        if fl.includeHosting then
          match st.assetDiffs with
          | some ls => ls
          | none => []
        else []
      let diffs := ds ++ hostingLines
      if diffs.isEmpty then
        .inl ⟨none, st.ev ++ [.remoteDiff],
          st.infos ++ ["Deployed app is identical to proposed version, nothing to do."],
          st.uiErrors, st.assetDiffs⟩
      else
        match env.confirmAns with
        | .failure e =>
            .inl ⟨some (.confirmAskFailure e), st.ev ++ [.remoteDiff, .askConfirm],
              st.infos ++ diffs, st.uiErrors, st.assetDiffs⟩
        | .answered false =>
            .inl ⟨none, st.ev ++ [.remoteDiff, .askConfirm],
              st.infos ++ diffs, st.uiErrors, st.assetDiffs⟩
        | .answered true =>
            .inr { st with ev := st.ev ++ [.remoteDiff, .askConfirm], infos := st.infos ++ diffs }
  else
    .inr st

/-- Lines 320-334 of `commands/import.go`: the post-apply re-sync — export
the deployed app and write it back into the local directory; either failure
is wrapped by `errImportAppSyncFailure`. -/
def phaseSync (env : Env) (st : StHosting) (infos : List String) (ev : List Event) : RunResult :=
  match env.exportErr with
  | some e => ⟨some (.importAppSyncFailure e), ev ++ [.exportApp], infos, st.uiErrors, st.assetDiffs⟩
  | none =>
  match env.writeDirErr with
  | some e =>
      ⟨some (.importAppSyncFailure e), ev ++ [.exportApp, .writeDir], infos, st.uiErrors, st.assetDiffs⟩
  | none =>
      ⟨none, ev ++ [.exportApp, .writeDir],
        infos ++ ["Successfully imported '" ++ st.app.ClientAppID ++ "'"],
        st.uiErrors, st.assetDiffs⟩

/-- Lines 306-318 of `commands/import.go`: push the configuration with the
(possibly overridden) strategy, abort on failure, then apply hosting assets
when requested, then re-sync via `phaseSync`. -/
def phaseApply (fl : Flags) (env : Env) (st : StHosting) : RunResult :=
  match env.importErr with
  | some e =>
      ⟨some (.importFailure e), st.ev ++ [.push st.strategy],
        st.infos ++ ["Importing app..."], st.uiErrors, st.assetDiffs⟩
  | none =>
  if fl.includeHosting && st.assetDiffs.isSome then
    match env.importHostingErr with
    | some e =>
        ⟨some (.importHostingFailure e), st.ev ++ [.push st.strategy, .applyAssets],
          st.infos ++ ["Importing app...", "Done.", "Importing hosting assets..."],
          st.uiErrors, st.assetDiffs⟩
    | none =>
        phaseSync env st
          (st.infos ++ ["Importing app...", "Done.", "Importing hosting assets...", "Done."])
          (st.ev ++ [.push st.strategy, .applyAssets])
  else
    phaseSync env st (st.infos ++ ["Importing app...", "Done."]) (st.ev ++ [.push st.strategy])

/-- The whole of `importApp` (lines 157-335 of `commands/import.go`). -/
def importApp (fl : Flags) (env : Env) : RunResult :=
  match phaseResolve fl env with
  | .inl r => r
  | .inr st =>
    match phaseHosting fl env st with
    | .inl r => r
    | .inr st2 =>
      match phaseDiff fl env st2 with
      | .inl r => r
      | .inr st3 => phaseApply fl env st3

/-- The validation message of line 145 of `commands/import.go`. -/
def strategyErrMsg (s : String) : String :=
  "unknown import strategy \"" ++ s ++ "\"; accepted values are [" ++
    importStrategyMerge ++ "|" ++ importStrategyReplace ++ "]"

/-- Lines 128-155 of `commands/import.go` (`Run`): after flag parsing
(`baseRunErr` is the outcome of `BaseCommand.run`), reject an unknown
strategy with exit code 1, otherwise run `importApp`, report its error via
`UI.Error`, and map `nil` to exit code 0 and any error to exit code 1. -/
def Run (fl : Flags) (baseRunErr : Option String) (env : Env) : Nat × RunResult :=
  match baseRunErr with
  | some e => (1, ⟨none, [], [], [e], none⟩)
  | none =>
  if fl.strategy ≠ importStrategyMerge ∧ fl.strategy ≠ importStrategyReplace then
    (1, ⟨none, [], [], [strategyErrMsg fl.strategy], none⟩)
  else
    let r := importApp fl env
    match r.ret with
    | some e => (1, { r with uiErrors := r.uiErrors ++ [message e] })
    | none => (0, r)

/-- Events that only the resolution phase (lines 157-227) can emit. -/
def Event.isResolveEv : Event → Bool
  | .userCheck | .loadDecl | .fetchApp | .askCreate | .createApp | .writeAppConfig => true
  | _ => false

/-- Events that only the hosting-preparation block (lines 229-272) can emit. -/
def Event.isHostingEv : Event → Bool
  | .cacheRead | .localHash | .cacheWrite | .listAssets | .assetDiff _ => true
  | _ => false

/-- Events that only the diff/confirmation block (lines 274-304) can emit. -/
def Event.isDiffEv : Event → Bool
  | .remoteDiff | .askConfirm => true
  | _ => false

/-- Events that only the apply/re-sync tail (lines 306-334) can emit. -/
def Event.isApplyEv : Event → Bool
  | .push _ | .applyAssets | .exportApp | .writeDir => true
  | _ => false

/-- Event trace of a resolution-phase outcome, error or state. -/
def outEvR : Sum RunResult StResolve → List Event
  | .inl r => r.events
  | .inr st => st.ev

/-- Event trace of a hosting- or diff-phase outcome, error or state. -/
def outEv : Sum RunResult StHosting → List Event
  | .inl r => r.events
  | .inr st => st.ev

/-- The events the resolution phase can emit. -/
def resolveEvs : List Event :=
  [.userCheck, .loadDecl, .fetchApp, .askCreate, .createApp, .writeAppConfig]

/-- The events the hosting block can emit (with the given merge flag). -/
def hostingEvs (merge : Bool) : List Event :=
  [.cacheRead, .localHash, .cacheWrite, .listAssets, .assetDiff merge]

/-- The events the diff/confirmation block can emit. -/
def diffEvs : List Event := [.remoteDiff, .askConfirm]

/-- The events the apply/re-sync tail can emit (with the given strategy). -/
def applyEvs (strategy : String) : List Event :=
  [.push strategy, .applyAssets, .exportApp, .writeDir]

/-- The no-op notice of line 288 of `commands/import.go`. -/
def noopInfo : String := "Deployed app is identical to proposed version, nothing to do."

/-- Replace the `UI.Error` lines of a hosting- or diff-phase outcome; used to
state that the dirty-cache write outcome influences nothing but `uiErrors`. -/
def setUi (u : List String) : Sum RunResult StHosting → Sum RunResult StHosting
  | .inl r => .inl { r with uiErrors := u }
  | .inr st => .inr { st with uiErrors := u }

/-- A concrete remote app used to instantiate the theorems. -/
def appW : App := ⟨"group-1", "app-id-1", "client-app-1", "My App"⟩

/-- Concrete flag values: merge strategy, no hosting, no `-y`. -/
def flagsBase : Flags := ⟨"client-app-1", "/work/app", "group-1", "My App", "merge", false, false, false⟩

/-- Concrete flag values with `--include-hosting`. -/
def flagsHosting : Flags := { flagsBase with includeHosting := true }

/-- A fully successful environment: every collaborator call succeeds, the app
is found remotely, the remote diff is nonempty and the user confirms. -/
def envBase : Env :=
  ⟨none, true, none, none, none, none, none, FetchOutcome.found appW, CreateFlow.declined,
    none, none, "/work/app/hosting/files", none, none, CacheLoad.loaded, none, false, none,
    none, [], DiffOutcome.ok ["~ value changed"], ConfirmOutcome.answered true,
    none, none, none, none⟩

/-- Environment where the app is not found remotely and the user creates it. -/
def envC1 : Env := { envBase with fetch := FetchOutcome.notFound, createFlow := CreateFlow.created appW }

/-- Environment where the user declines the diff confirmation. -/
def envC2 : Env := { envBase with confirmAns := ConfirmOutcome.answered false }

/-- Environment where the remote configuration diff is empty. -/
def envC3 : Env := { envBase with remoteDiffRes := DiffOutcome.ok [] }

/-- Environment where the configuration push fails. -/
def envC5 : Env := { envBase with importErr := some "connection reset" }

/-- Environment where the post-apply export fails. -/
def envC6 : Env := { envBase with exportErr := some "export timed out" }

/-- Environment with a dirty asset cache whose cache-file write fails. -/
def envC7 : Env := { envBase with cacheDirty := true, cacheWriteErr := some "disk full" }

/-- Environment where decoding the local declaration fails. -/
def envC8 : Env := { envBase with unmarshalErr := some "malformed declaration" }

/-- Environment where the app is not found and the user declines creating it. -/
def envC9 : Env := { envBase with fetch := FetchOutcome.notFound }

example : (importApp flagsBase envBase).ret = none := by decide

example : (importApp flagsBase envBase).events =
    [.userCheck, .loadDecl, .fetchApp, .remoteDiff, .askConfirm, .push "merge",
      .exportApp, .writeDir] := by decide

example : (importApp flagsHosting envBase).events =
    [.userCheck, .loadDecl, .fetchApp, .cacheRead, .localHash, .listAssets, .assetDiff true,
      .remoteDiff, .askConfirm, .push "merge", .applyAssets, .exportApp, .writeDir] := by decide

example : (Run flagsBase none envBase).1 = 0 := by decide

example : (Run { flagsBase with strategy := "bogus" } none envBase).1 = 1 := by decide

theorem phaseResolve_events (fl : Flags) (env : Env) :
    outEvR (phaseResolve fl env) ⊆ resolveEvs := by
  unfold phaseResolve
  repeat' split
  all_goals (dsimp only [outEvR]; decide)

theorem phaseHostTail_events (env : Env) (st : StResolve) (ev2 : List Event) (ui : List String) :
    ∃ t, outEv (phaseHostTail env st ev2 ui) = ev2 ++ t ∧
      t ⊆ hostingEvs (st.strategy == importStrategyMerge) := by
  unfold phaseHostTail
  split
  · refine ⟨[.listAssets], rfl, ?_⟩
    intro x hx
    fin_cases hx <;> simp [hostingEvs]
  · refine ⟨[.listAssets, .assetDiff (st.strategy == importStrategyMerge)], rfl, ?_⟩
    intro x hx
    fin_cases hx <;> simp [hostingEvs]

theorem phaseHosting_events (fl : Flags) (env : Env) (st : StResolve) :
    ∃ t, outEv (phaseHosting fl env st) = st.ev ++ t ∧
      t ⊆ hostingEvs (st.strategy == importStrategyMerge) := by
  unfold phaseHosting
  repeat' split
  all_goals first
    | (refine ⟨[], ?_, ?_⟩ <;> simp [outEv]
       done)
    | (refine ⟨[.cacheRead], rfl, ?_⟩
       intro x hx
       fin_cases hx <;> simp [hostingEvs]
       done)
    | (refine ⟨[.cacheRead, .localHash], rfl, ?_⟩
       intro x hx
       fin_cases hx <;> simp [hostingEvs]
       done)
    | (obtain ⟨t, h1, h2⟩ :=
        phaseHostTail_events env st (st.ev ++ [.cacheRead, .localHash, .cacheWrite]) (cacheWriteUi env)
       refine ⟨[.cacheRead, .localHash, .cacheWrite] ++ t, ?_, ?_⟩
       · rw [h1, List.append_assoc]
       · intro x hx
         rcases List.mem_append.mp hx with hx | hx
         · fin_cases hx <;> simp [hostingEvs]
         · exact h2 hx
       done)
    | (obtain ⟨t, h1, h2⟩ :=
        phaseHostTail_events env st (st.ev ++ [.cacheRead, .localHash]) []
       refine ⟨[.cacheRead, .localHash] ++ t, ?_, ?_⟩
       · rw [h1, List.append_assoc]
       · intro x hx
         rcases List.mem_append.mp hx with hx | hx
         · fin_cases hx <;> simp [hostingEvs]
         · exact h2 hx
       done)

theorem phaseDiff_events (fl : Flags) (env : Env) (st : StHosting) :
    ∃ t, outEv (phaseDiff fl env st) = st.ev ++ t ∧ t ⊆ diffEvs := by
  unfold phaseDiff
  dsimp only
  repeat' split
  all_goals first
    | (refine ⟨[], ?_, ?_⟩ <;> simp [outEv]
       done)
    | (refine ⟨[.remoteDiff], rfl, ?_⟩
       decide)
    | (refine ⟨[.remoteDiff, .askConfirm], rfl, ?_⟩
       decide)

theorem phaseSync_events (env : Env) (st : StHosting) (infos : List String) (ev : List Event) :
    ∃ t, (phaseSync env st infos ev).events = ev ++ t ∧ t ⊆ [Event.exportApp, Event.writeDir] := by
  unfold phaseSync
  repeat' split
  all_goals first
    | (refine ⟨[.exportApp], rfl, ?_⟩
       decide)
    | (refine ⟨[.exportApp, .writeDir], rfl, ?_⟩
       decide)

theorem phaseApply_events (fl : Flags) (env : Env) (st : StHosting) :
    ∃ t, (phaseApply fl env st).events = st.ev ++ t ∧ t ⊆ applyEvs st.strategy := by
  unfold phaseApply
  repeat' split
  all_goals first
    | (refine ⟨[.push st.strategy], rfl, ?_⟩
       intro x hx
       fin_cases hx <;> simp [applyEvs]
       done)
    | (refine ⟨[.push st.strategy, .applyAssets], rfl, ?_⟩
       intro x hx
       fin_cases hx <;> simp [applyEvs]
       done)
    | (obtain ⟨t, h1, h2⟩ := phaseSync_events env st
        (st.infos ++ ["Importing app...", "Done.", "Importing hosting assets...", "Done."])
        (st.ev ++ [.push st.strategy, .applyAssets])
       refine ⟨[.push st.strategy, .applyAssets] ++ t, ?_, ?_⟩
       · rw [h1, List.append_assoc]
       · intro x hx
         rcases List.mem_append.mp hx with hx | hx
         · fin_cases hx <;> simp [applyEvs]
         · have hx2 := h2 hx
           fin_cases hx2 <;> simp [applyEvs]
       done)
    | (obtain ⟨t, h1, h2⟩ := phaseSync_events env st
        (st.infos ++ ["Importing app...", "Done."]) (st.ev ++ [.push st.strategy])
       refine ⟨[.push st.strategy] ++ t, ?_, ?_⟩
       · rw [h1, List.append_assoc]
       · intro x hx
         rcases List.mem_append.mp hx with hx | hx
         · fin_cases hx <;> simp [applyEvs]
         · have hx2 := h2 hx
           fin_cases hx2 <;> simp [applyEvs]
       done)

theorem importApp_eq_resolve_inl {fl : Flags} {env : Env} {r : RunResult}
    (h : phaseResolve fl env = .inl r) : importApp fl env = r := by
  simp [importApp, h]

theorem importApp_eq_hosting_inl {fl : Flags} {env : Env} {st : StResolve} {r : RunResult}
    (h1 : phaseResolve fl env = .inr st) (h2 : phaseHosting fl env st = .inl r) :
    importApp fl env = r := by
  simp [importApp, h1, h2]

theorem importApp_eq_diff_inl {fl : Flags} {env : Env} {st : StResolve} {st2 : StHosting}
    {r : RunResult} (h1 : phaseResolve fl env = .inr st) (h2 : phaseHosting fl env st = .inr st2)
    (h3 : phaseDiff fl env st2 = .inl r) : importApp fl env = r := by
  simp [importApp, h1, h2, h3]

theorem importApp_eq_apply {fl : Flags} {env : Env} {st : StResolve} {st2 st3 : StHosting}
    (h1 : phaseResolve fl env = .inr st) (h2 : phaseHosting fl env st = .inr st2)
    (h3 : phaseDiff fl env st2 = .inr st3) : importApp fl env = phaseApply fl env st3 := by
  simp [importApp, h1, h2, h3]

theorem phaseResolve_inl_events {fl : Flags} {env : Env} {r : RunResult}
    (h : phaseResolve fl env = .inl r) : r.events ⊆ resolveEvs := by
  have hb := phaseResolve_events fl env
  rw [h] at hb
  simpa [outEvR] using hb

theorem phaseResolve_inr_ev {fl : Flags} {env : Env} {st : StResolve}
    (h : phaseResolve fl env = .inr st) : st.ev ⊆ resolveEvs := by
  have hb := phaseResolve_events fl env
  rw [h] at hb
  simpa [outEvR] using hb

theorem phaseHosting_inl_events {fl : Flags} {env : Env} {st : StResolve} {r : RunResult}
    (h : phaseHosting fl env st = .inl r) :
    ∃ t, r.events = st.ev ++ t ∧ t ⊆ hostingEvs (st.strategy == importStrategyMerge) := by
  have hb := phaseHosting_events fl env st
  rw [h] at hb
  simpa [outEv] using hb

theorem phaseHosting_inr_ev {fl : Flags} {env : Env} {st : StResolve} {st2 : StHosting}
    (h : phaseHosting fl env st = .inr st2) :
    ∃ t, st2.ev = st.ev ++ t ∧ t ⊆ hostingEvs (st.strategy == importStrategyMerge) := by
  have hb := phaseHosting_events fl env st
  rw [h] at hb
  simpa [outEv] using hb

theorem phaseDiff_inl_events {fl : Flags} {env : Env} {st : StHosting} {r : RunResult}
    (h : phaseDiff fl env st = .inl r) : ∃ t, r.events = st.ev ++ t ∧ t ⊆ diffEvs := by
  have hb := phaseDiff_events fl env st
  rw [h] at hb
  simpa [outEv] using hb

theorem phaseDiff_inr_ev {fl : Flags} {env : Env} {st st3 : StHosting}
    (h : phaseDiff fl env st = .inr st3) : ∃ t, st3.ev = st.ev ++ t ∧ t ⊆ diffEvs := by
  have hb := phaseDiff_events fl env st
  rw [h] at hb
  simpa [outEv] using hb

theorem phaseHostTail_inr_fields {env : Env} {st : StResolve} {ev2 : List Event}
    {ui : List String} {st2 : StHosting} (h : phaseHostTail env st ev2 ui = .inr st2) :
    st2.skipDiff = st.skipDiff ∧ st2.strategy = st.strategy ∧ st2.app = st.app := by
  unfold phaseHostTail at h
  split at h
  · exact Sum.noConfusion h
  · injection h with h2
    subst h2
    exact ⟨rfl, rfl, rfl⟩

theorem phaseHosting_inr_fields {fl : Flags} {env : Env} {st : StResolve} {st2 : StHosting}
    (h : phaseHosting fl env st = .inr st2) :
    st2.skipDiff = st.skipDiff ∧ st2.strategy = st.strategy ∧ st2.app = st.app := by
  unfold phaseHosting at h
  repeat' split at h
  all_goals first
    | exact Sum.noConfusion h
    | (injection h with h2
       subst h2
       exact ⟨rfl, rfl, rfl⟩)
    | exact phaseHostTail_inr_fields h

theorem phaseDiff_inr_fields {fl : Flags} {env : Env} {st st3 : StHosting}
    (h : phaseDiff fl env st = .inr st3) :
    st3.skipDiff = st.skipDiff ∧ st3.strategy = st.strategy ∧ st3.app = st.app ∧
      st3.assetDiffs = st.assetDiffs ∧ st3.uiErrors = st.uiErrors := by
  unfold phaseDiff at h
  dsimp only at h
  repeat' split at h
  all_goals first
    | exact Sum.noConfusion h
    | (injection h with h2
       subst h2
       exact ⟨rfl, rfl, rfl, rfl, rfl⟩)

theorem phaseDiff_skip {fl : Flags} {env : Env} {st : StHosting} (h : st.skipDiff = true) :
    phaseDiff fl env st = .inr st := by
  unfold phaseDiff
  simp [h]

theorem phaseResolve_notFound {fl : Flags} {env : Env} {st : StResolve}
    (hf : env.fetch = .notFound) (h : phaseResolve fl env = .inr st) :
    st.skipDiff = true ∧ st.strategy = importStrategyReplace := by
  unfold phaseResolve at h
  repeat' split at h
  all_goals first
    | exact Sum.noConfusion h
    | (injection h with h2
       subst h2
       exact ⟨rfl, rfl⟩)
    | simp_all

theorem phaseApply_importFailure {fl : Flags} {env : Env} {st : StHosting} {e : String}
    (h : env.importErr = some e) :
    phaseApply fl env st = ⟨some (.importFailure e), st.ev ++ [.push st.strategy],
      st.infos ++ ["Importing app..."], st.uiErrors, st.assetDiffs⟩ := by
  unfold phaseApply
  simp [h]

theorem phaseSync_exportFailure {env : Env} {st : StHosting} {infos : List String}
    {ev : List Event} {e : String} (h : env.exportErr = some e) :
    phaseSync env st infos ev =
      ⟨some (.importAppSyncFailure e), ev ++ [.exportApp], infos, st.uiErrors, st.assetDiffs⟩ := by
  unfold phaseSync
  simp [h]

theorem phaseSync_writeDirFailure {env : Env} {st : StHosting} {infos : List String}
    {ev : List Event} {e : String} (h1 : env.exportErr = none) (h2 : env.writeDirErr = some e) :
    phaseSync env st infos ev =
      ⟨some (.importAppSyncFailure e), ev ++ [.exportApp, .writeDir], infos,
        st.uiErrors, st.assetDiffs⟩ := by
  unfold phaseSync
  simp [h1, h2]

theorem phaseApply_cases (fl : Flags) (env : Env) (st : StHosting) :
    (∃ e, env.importErr = some e ∧
      phaseApply fl env st = ⟨some (.importFailure e), st.ev ++ [.push st.strategy],
        st.infos ++ ["Importing app..."], st.uiErrors, st.assetDiffs⟩) ∨
    (∃ e, env.importHostingErr = some e ∧
      phaseApply fl env st = ⟨some (.importHostingFailure e),
        st.ev ++ [.push st.strategy, .applyAssets],
        st.infos ++ ["Importing app...", "Done.", "Importing hosting assets..."],
        st.uiErrors, st.assetDiffs⟩) ∨
    (∃ infos2 ev2, phaseApply fl env st = phaseSync env st infos2 ev2 ∧
      (ev2 = st.ev ++ [.push st.strategy] ∨ ev2 = st.ev ++ [.push st.strategy, .applyAssets])) := by
  unfold phaseApply
  repeat' split
  all_goals first
    | (refine Or.inl ⟨_, ?_, rfl⟩
       assumption)
    | (refine Or.inr (Or.inl ⟨_, ?_, rfl⟩)
       assumption)
    | exact Or.inr (Or.inr ⟨_, _, rfl, Or.inl rfl⟩)
    | exact Or.inr (Or.inr ⟨_, _, rfl, Or.inr rfl⟩)

theorem phaseSync_fields (env : Env) (st : StHosting) (infos : List String) (ev : List Event) :
    (phaseSync env st infos ev).uiErrors = st.uiErrors ∧
      (phaseSync env st infos ev).assetDiffs = st.assetDiffs := by
  unfold phaseSync
  repeat' split
  all_goals exact ⟨rfl, rfl⟩

theorem phaseApply_fields (fl : Flags) (env : Env) (st : StHosting) :
    (phaseApply fl env st).uiErrors = st.uiErrors ∧
      (phaseApply fl env st).assetDiffs = st.assetDiffs := by
  unfold phaseApply phaseSync
  repeat' split
  all_goals exact ⟨rfl, rfl⟩

theorem phaseDiff_inl_fields {fl : Flags} {env : Env} {st : StHosting} {r : RunResult}
    (h : phaseDiff fl env st = .inl r) :
    r.uiErrors = st.uiErrors ∧ r.assetDiffs = st.assetDiffs := by
  unfold phaseDiff at h
  dsimp only at h
  repeat' split at h
  all_goals first
    | exact Sum.noConfusion h
    | (injection h with h2
       subst h2
       exact ⟨rfl, rfl⟩)

theorem phaseResolve_inl_assetDiffs {fl : Flags} {env : Env} {r : RunResult}
    (h : phaseResolve fl env = .inl r) : r.assetDiffs = none := by
  unfold phaseResolve at h
  repeat' split at h
  all_goals first
    | exact Sum.noConfusion h
    | (injection h with h2
       subst h2
       rfl)

theorem phaseHosting_inl_assetDiffs {fl : Flags} {env : Env} {st : StResolve} {r : RunResult}
    (h : phaseHosting fl env st = .inl r) : r.assetDiffs = none := by
  unfold phaseHosting phaseHostTail at h
  repeat' split at h
  all_goals first
    | exact Sum.noConfusion h
    | (injection h with h2
       subst h2
       rfl)

theorem phaseHosting_inr_assetDiffs {fl : Flags} {env : Env} {st : StResolve} {st2 : StHosting}
    (h : phaseHosting fl env st = .inr st2) :
    st2.assetDiffs = some env.assetDiffLines ∨
      (fl.includeHosting = false ∧ st2.assetDiffs = none ∧ st2.ev = st.ev ∧ st2.uiErrors = []) := by
  unfold phaseHosting phaseHostTail at h
  repeat' split at h
  all_goals first
    | exact Sum.noConfusion h
    | (injection h with h2
       subst h2
       exact Or.inl rfl)
    | (injection h with h2
       subst h2
       refine Or.inr ⟨?_, rfl, rfl, rfl⟩
       simp_all)

theorem phaseResolve_frame (fl : Flags) (env : Env) :
    phaseResolve fl { env with cacheWriteErr := none } = phaseResolve fl env := rfl

theorem phaseDiff_frame (fl : Flags) (env : Env) (st : StHosting) :
    phaseDiff fl { env with cacheWriteErr := none } st = phaseDiff fl env st := rfl

theorem phaseApply_frame (fl : Flags) (env : Env) (st : StHosting) :
    phaseApply fl { env with cacheWriteErr := none } st = phaseApply fl env st := rfl

theorem phaseHosting_setUi (fl : Flags) (env : Env) (st : StResolve) :
    phaseHosting fl { env with cacheWriteErr := none } st = setUi [] (phaseHosting fl env st) := by
  unfold phaseHosting phaseHostTail cacheWriteUi
  dsimp only
  repeat' split
  all_goals simp [setUi]

theorem phaseDiff_setUi (fl : Flags) (env : Env) (st : StHosting) (u : List String) :
    phaseDiff fl env { st with uiErrors := u } = setUi u (phaseDiff fl env st) := by
  unfold phaseDiff
  dsimp only
  repeat' split
  all_goals simp [setUi]

theorem phaseApply_setUi (fl : Flags) (env : Env) (st : StHosting) (u : List String) :
    phaseApply fl env { st with uiErrors := u } = { phaseApply fl env st with uiErrors := u } := by
  unfold phaseApply phaseSync
  dsimp only
  repeat' split
  all_goals rfl

theorem preDiff_sub {fl : Flags} {env : Env} {st : StResolve} {st2 : StHosting}
    (hR : phaseResolve fl env = .inr st) (hH : phaseHosting fl env st = .inr st2) :
    st2.ev ⊆ resolveEvs ++ hostingEvs (st.strategy == importStrategyMerge) := by
  obtain ⟨t2, he2, hb2⟩ := phaseHosting_inr_ev hH
  have h1 := phaseResolve_inr_ev hR
  intro x hx
  rw [he2] at hx
  rcases List.mem_append.mp hx with hx | hx
  · exact List.mem_append_left _ (h1 hx)
  · exact List.mem_append_right _ (hb2 hx)

theorem preApply_sub {fl : Flags} {env : Env} {st : StResolve} {st2 st3 : StHosting}
    (hR : phaseResolve fl env = .inr st) (hH : phaseHosting fl env st = .inr st2)
    (hD : phaseDiff fl env st2 = .inr st3) :
    st3.ev ⊆ resolveEvs ++ (hostingEvs (st.strategy == importStrategyMerge) ++ diffEvs) := by
  obtain ⟨t3, he3, hb3⟩ := phaseDiff_inr_ev hD
  have h2 := preDiff_sub hR hH
  intro x hx
  rw [he3] at hx
  rcases List.mem_append.mp hx with hx | hx
  · rcases List.mem_append.mp (h2 hx) with hx | hx
    · exact List.mem_append_left _ hx
    · exact List.mem_append_right _ (List.mem_append_left _ hx)
  · exact List.mem_append_right _ (List.mem_append_right _ (hb3 hx))

theorem message_sync_ne_importFailure (s t : String) :
    message (ImportError.importAppSyncFailure s) ≠ message (ImportError.importFailure t) := by
  simp only [message]
  intro h
  have h2 := congrArg String.data h
  simp only [String.data_append] at h2
  have h3 := congrArg (fun l => l[10]?) h2
  simp only [] at h3
  rw [List.getElem?_append_left (by decide), List.getElem?_append_left (by decide)] at h3
  exact absurd h3 (by decide)

theorem importApp_cacheWrite_frame (fl : Flags) (env : Env) :
    (importApp fl { env with cacheWriteErr := none }).ret = (importApp fl env).ret ∧
    (importApp fl { env with cacheWriteErr := none }).events = (importApp fl env).events ∧
    (importApp fl { env with cacheWriteErr := none }).infos = (importApp fl env).infos := by
  unfold importApp
  rw [phaseResolve_frame]
  cases h1 : phaseResolve fl env with
  | inl r => exact ⟨rfl, rfl, rfl⟩
  | inr st =>
    dsimp only
    rw [phaseHosting_setUi]
    cases h2 : phaseHosting fl env st with
    | inl r => exact ⟨rfl, rfl, rfl⟩
    | inr st2 =>
      dsimp only [setUi]
      rw [phaseDiff_frame, phaseDiff_setUi]
      cases h3 : phaseDiff fl env st2 with
      | inl r => exact ⟨rfl, rfl, rfl⟩
      | inr st3 =>
        dsimp only [setUi]
        rw [phaseApply_frame, phaseApply_setUi]
        exact ⟨rfl, rfl, rfl⟩

theorem message_sync_ne_importHostingFailure (s t : String) :
    message (ImportError.importAppSyncFailure s) ≠ message (ImportError.importHostingFailure t) := by
  simp only [message]
  intro h
  have h2 := congrArg String.data h
  simp only [String.data_append] at h2
  have h3 := congrArg (fun l => l[10]?) h2
  simp only [] at h3
  rw [List.getElem?_append_left (by decide), List.getElem?_append_left (by decide)] at h3
  exact absurd h3 (by decide)

theorem phaseDiff_decline_inl {fl : Flags} {env : Env} {st : StHosting} {r : RunResult}
    (hc : env.confirmAns = ConfirmOutcome.answered false)
    (h : phaseDiff fl env st = .inl r) (ha : Event.askConfirm ∉ st.ev) :
    Event.askConfirm ∈ r.events →
      r.ret = none ∧ r.events = st.ev ++ [.remoteDiff, .askConfirm] := by
  unfold phaseDiff at h
  dsimp only at h
  repeat' split at h
  all_goals first
    | exact Sum.noConfusion h
    | (injection h with h2
       subst h2
       intro hm
       exact ⟨rfl, rfl⟩)
    | (injection h with h2
       subst h2
       intro hm
       rcases List.mem_append.mp hm with hm | hm
       · exact absurd hm ha
       · simp at hm)
    | simp_all

theorem phaseDiff_decline_inr {fl : Flags} {env : Env} {st st3 : StHosting}
    (hc : env.confirmAns = ConfirmOutcome.answered false)
    (h : phaseDiff fl env st = .inr st3) : st3 = st := by
  unfold phaseDiff at h
  dsimp only at h
  repeat' split at h
  all_goals first
    | exact Sum.noConfusion h
    | (injection h with h2
       exact h2.symm)
    | simp_all

theorem confirm_decline_core (fl : Flags) (env : Env)
    (hc : env.confirmAns = ConfirmOutcome.answered false)
    (ha : Event.askConfirm ∈ (importApp fl env).events) :
    (importApp fl env).ret = none ∧
    (∀ s, Event.push s ∉ (importApp fl env).events) ∧
    Event.applyAssets ∉ (importApp fl env).events ∧
    Event.exportApp ∉ (importApp fl env).events ∧
    Event.writeDir ∉ (importApp fl env).events := by
  cases h1 : phaseResolve fl env with
  | inl r =>
    rw [importApp_eq_resolve_inl h1] at ha ⊢
    have hc2 := phaseResolve_inl_events h1 ha
    simp [resolveEvs] at hc2
  | inr st =>
    have hres := phaseResolve_inr_ev h1
    cases h2 : phaseHosting fl env st with
    | inl r =>
      rw [importApp_eq_hosting_inl h1 h2] at ha ⊢
      obtain ⟨t, he, hb⟩ := phaseHosting_inl_events h2
      rw [he] at ha
      rcases List.mem_append.mp ha with hm | hm
      · have hc2 := hres hm
        simp [resolveEvs] at hc2
      · have hc2 := hb hm
        simp [hostingEvs] at hc2
    | inr st2 =>
      have hpre := preDiff_sub h1 h2
      have hanotin : Event.askConfirm ∉ st2.ev := by
        intro hm
        have hc2 := hpre hm
        simp [resolveEvs, hostingEvs] at hc2
      cases h3 : phaseDiff fl env st2 with
      | inl r =>
        rw [importApp_eq_diff_inl h1 h2 h3] at ha ⊢
        obtain ⟨hret, hev⟩ := phaseDiff_decline_inl hc h3 hanotin ha
        refine ⟨hret, fun s hm => ?_, fun hm => ?_, fun hm => ?_, fun hm => ?_⟩ <;>
          · rw [hev] at hm
            rcases List.mem_append.mp hm with hm | hm
            · have hc2 := hpre hm
              simp [resolveEvs, hostingEvs] at hc2
            · simp at hm
      | inr st3 =>
        have hst : st3 = st2 := phaseDiff_decline_inr hc h3
        rw [importApp_eq_apply h1 h2 h3, hst] at ha
        obtain ⟨t, he, hb⟩ := phaseApply_events fl env st2
        rw [he] at ha
        rcases List.mem_append.mp ha with hm | hm
        · exact absurd hm hanotin
        · have hc2 := hb hm
          simp [applyEvs] at hc2

/-- C1: when the remote application lookup reports the application as not
found, the orchestrator forces the `replace` strategy (overriding the flag)
and sets `skipDiff`, so the run never performs the remote configuration diff
nor the diff-confirmation prompt, and any configuration push it issues uses
the `replace` strategy. -/
theorem c1_notFound_forces_replace_skipDiff (fl : Flags) (env : Env)
    (hf : env.fetch = FetchOutcome.notFound) :
    Event.remoteDiff ∉ (importApp fl env).events ∧
    Event.askConfirm ∉ (importApp fl env).events ∧
    ∀ s, Event.push s ∈ (importApp fl env).events → s = importStrategyReplace := by
  cases h1 : phaseResolve fl env with
  | inl r =>
    rw [importApp_eq_resolve_inl h1]
    have hb := phaseResolve_inl_events h1
    refine ⟨fun hm => ?_, fun hm => ?_, fun s hm => ?_⟩ <;>
      · have hc := hb hm
        simp [resolveEvs] at hc
  | inr st =>
    obtain ⟨hskip, hstrat⟩ := phaseResolve_notFound hf h1
    have hres := phaseResolve_inr_ev h1
    cases h2 : phaseHosting fl env st with
    | inl r =>
      rw [importApp_eq_hosting_inl h1 h2]
      obtain ⟨t, he, hb⟩ := phaseHosting_inl_events h2
      refine ⟨fun hm => ?_, fun hm => ?_, fun s hm => ?_⟩ <;>
        · rw [he] at hm
          rcases List.mem_append.mp hm with hm | hm
          · have hc := hres hm
            simp [resolveEvs] at hc
          · have hc := hb hm
            simp [hostingEvs] at hc
    | inr st2 =>
      have hskip2 : st2.skipDiff = true := by
        rw [(phaseHosting_inr_fields h2).1, hskip]
      have hstrat2 : st2.strategy = importStrategyReplace := by
        rw [(phaseHosting_inr_fields h2).2.1, hstrat]
      have h3 : phaseDiff fl env st2 = .inr st2 := phaseDiff_skip hskip2
      rw [importApp_eq_apply h1 h2 h3]
      obtain ⟨t, he, hb⟩ := phaseApply_events fl env st2
      have hpre := preDiff_sub h1 h2
      refine ⟨fun hm => ?_, fun hm => ?_, fun s hm => ?_⟩
      · rw [he] at hm
        rcases List.mem_append.mp hm with hm | hm
        · have hc := hpre hm
          simp [resolveEvs, hostingEvs] at hc
        · have hc := hb hm
          simp [applyEvs] at hc
      · rw [he] at hm
        rcases List.mem_append.mp hm with hm | hm
        · have hc := hpre hm
          simp [resolveEvs, hostingEvs] at hc
        · have hc := hb hm
          simp [applyEvs] at hc
      · rw [he] at hm
        rcases List.mem_append.mp hm with hm | hm
        · have hc := hpre hm
          simp [resolveEvs, hostingEvs] at hc
        · have hc := hb hm
          rw [hstrat2] at hc
          simp [applyEvs] at hc
          exact hc

/-- Witness for C1 at a concrete input: app not found, user creates it. -/
theorem c1_witness :
    Event.remoteDiff ∉ (importApp flagsBase envC1).events ∧
    Event.askConfirm ∉ (importApp flagsBase envC1).events ∧
    ∀ s, Event.push s ∈ (importApp flagsBase envC1).events → s = importStrategyReplace :=
  c1_notFound_forces_replace_skipDiff flagsBase envC1 rfl

theorem phaseDiff_noop {fl : Flags} {env : Env} {st : StHosting}
    (hd : env.remoteDiffRes = DiffOutcome.ok [])
    (hl : fl.includeHosting = true → st.assetDiffs = some [] ∨ st.assetDiffs = none) :
    phaseDiff fl env st = .inr st ∨
    phaseDiff fl env st =
      .inl ⟨none, st.ev ++ [.remoteDiff], st.infos ++ [noopInfo], st.uiErrors, st.assetDiffs⟩ := by
  unfold phaseDiff
  dsimp only
  split
  · rw [hd]
    dsimp only
    split
    next hInc =>
      rcases hl hInc with h | h <;>
        · rw [h]
          exact Or.inr rfl
    next hInc => exact Or.inr rfl
  · exact Or.inl rfl

/-- C2: when the run reaches the diff-confirmation prompt and the user
declines, the run returns `nil` and no remote mutation ever happens: no
configuration push, no asset application, and no post-apply export or local
write-back. -/
theorem c2_decline_no_mutation (fl : Flags) (env : Env)
    (hc : env.confirmAns = ConfirmOutcome.answered false)
    (ha : Event.askConfirm ∈ (importApp fl env).events) :
    (importApp fl env).ret = none ∧
    (∀ s, Event.push s ∉ (importApp fl env).events) ∧
    Event.applyAssets ∉ (importApp fl env).events ∧
    Event.exportApp ∉ (importApp fl env).events ∧
    Event.writeDir ∉ (importApp fl env).events :=
  confirm_decline_core fl env hc ha

/-- Witness for C2 at a concrete input: nonempty diff, user answers no. -/
theorem c2_witness :
    (importApp flagsBase envC2).ret = none ∧
    (∀ s, Event.push s ∉ (importApp flagsBase envC2).events) ∧
    Event.applyAssets ∉ (importApp flagsBase envC2).events ∧
    Event.exportApp ∉ (importApp flagsBase envC2).events ∧
    Event.writeDir ∉ (importApp flagsBase envC2).events :=
  c2_decline_no_mutation flagsBase envC2 rfl (by decide)

theorem Run_cases (fl : Flags) (env : Env) :
    (fl.strategy ≠ importStrategyMerge ∧ fl.strategy ≠ importStrategyReplace ∧
      Run fl none env = (1, ⟨none, [], [], [strategyErrMsg fl.strategy], none⟩)) ∨
    ((Run fl none env).2.events = (importApp fl env).events ∧
      ((importApp fl env).ret = none → (Run fl none env).1 = 0) ∧
      ((importApp fl env).ret ≠ none → (Run fl none env).1 = 1)) := by
  unfold Run
  dsimp only
  split
  next hc => exact Or.inl ⟨hc.1, hc.2, rfl⟩
  next hc =>
    cases hret : (importApp fl env).ret with
    | none => exact Or.inr ⟨rfl, fun _ => rfl, fun hn => absurd rfl hn⟩
    | some e => exact Or.inr ⟨rfl, fun h => Option.noConfusion h, fun _ => rfl⟩

theorem phaseResolve_unmarshal_no_inr {fl : Flags} {env : Env} {e : String} {st : StResolve}
    (hu : env.unmarshalErr = some e) (h : phaseResolve fl env = .inr st) : False := by
  unfold phaseResolve at h
  repeat' split at h
  all_goals first
    | exact Sum.noConfusion h
    | simp_all

theorem phaseResolve_unmarshal_inl {fl : Flags} {env : Env} {e : String} {r : RunResult}
    (hu : env.unmarshalErr = some e) (h : phaseResolve fl env = .inl r)
    (hl : Event.loadDecl ∈ r.events) :
    r = ⟨some (.unmarshalFailure e), [.userCheck, .loadDecl], [], [], none⟩ := by
  unfold phaseResolve at h
  repeat' split at h
  all_goals first
    | exact Sum.noConfusion h
    | (injection h with h2
       subst h2
       simp at hl
       done)
    | (injection h with h2
       subst h2
       simp_all
       done)
    | simp_all

theorem phaseResolve_declined_inl {fl : Flags} {env : Env} {r : RunResult}
    (hd : env.createFlow = CreateFlow.declined)
    (h : phaseResolve fl env = .inl r) (ha : Event.askCreate ∈ r.events) : r.ret = none := by
  unfold phaseResolve at h
  repeat' split at h
  all_goals first
    | exact Sum.noConfusion h
    | (injection h with h2
       subst h2
       simp at ha
       done)
    | (injection h with h2
       subst h2
       rfl)
    | simp_all

theorem phaseResolve_declined_inr {fl : Flags} {env : Env} {st : StResolve}
    (hd : env.createFlow = CreateFlow.declined) (h : phaseResolve fl env = .inr st) :
    st.ev = [.userCheck, .loadDecl, .fetchApp] := by
  unfold phaseResolve at h
  repeat' split at h
  all_goals first
    | exact Sum.noConfusion h
    | (injection h with h2
       subst h2
       rfl)
    | simp_all

theorem create_decline_ret (fl : Flags) (env : Env)
    (hd : env.createFlow = CreateFlow.declined)
    (ha : Event.askCreate ∈ (importApp fl env).events) :
    (importApp fl env).ret = none := by
  cases h1 : phaseResolve fl env with
  | inl r =>
    rw [importApp_eq_resolve_inl h1] at ha ⊢
    exact phaseResolve_declined_inl hd h1 ha
  | inr st =>
    exfalso
    have hev1 := phaseResolve_declined_inr hd h1
    cases h2 : phaseHosting fl env st with
    | inl r =>
      rw [importApp_eq_hosting_inl h1 h2] at ha
      obtain ⟨t, he, hb⟩ := phaseHosting_inl_events h2
      rw [he, hev1] at ha
      rcases List.mem_append.mp ha with hm | hm
      · simp at hm
      · have hc2 := hb hm
        simp [hostingEvs] at hc2
    | inr st2 =>
      obtain ⟨t2, he2, hb2⟩ := phaseHosting_inr_ev h2
      cases h3 : phaseDiff fl env st2 with
      | inl r =>
        rw [importApp_eq_diff_inl h1 h2 h3] at ha
        obtain ⟨t3, he3, hb3⟩ := phaseDiff_inl_events h3
        rw [he3, he2, hev1] at ha
        simp only [List.append_assoc, List.mem_append] at ha
        rcases ha with ha | ha | ha
        · simp at ha
        · have hc2 := hb2 ha
          simp [hostingEvs] at hc2
        · have hc2 := hb3 ha
          simp [diffEvs] at hc2
      | inr st3 =>
        rw [importApp_eq_apply h1 h2 h3] at ha
        obtain ⟨tA, heA, hbA⟩ := phaseApply_events fl env st3
        obtain ⟨t3, he3, hb3⟩ := phaseDiff_inr_ev h3
        rw [heA, he3, he2, hev1] at ha
        simp only [List.append_assoc, List.mem_append] at ha
        rcases ha with ha | ha | ha | ha
        · simp at ha
        · have hc2 := hb2 ha
          simp [hostingEvs] at hc2
        · have hc2 := hb3 ha
          simp [diffEvs] at hc2
        · have hc2 := hbA ha
          simp [applyEvs] at hc2

theorem phaseHosting_noHosting_inl {fl : Flags} {env : Env} {st : StResolve} {r : RunResult}
    (hh : fl.includeHosting = false) (h : phaseHosting fl env st = .inl r) :
    r.events = st.ev ∧ r.assetDiffs = none := by
  unfold phaseHosting at h
  repeat' split at h
  all_goals first
    | exact Sum.noConfusion h
    | (injection h with h2
       subst h2
       exact ⟨rfl, rfl⟩)
    | simp_all

theorem phaseHosting_noHosting_inr {fl : Flags} {env : Env} {st : StResolve} {st2 : StHosting}
    (hh : fl.includeHosting = false) (h : phaseHosting fl env st = .inr st2) :
    st2.ev = st.ev ∧ st2.assetDiffs = none := by
  unfold phaseHosting at h
  repeat' split at h
  all_goals first
    | exact Sum.noConfusion h
    | (injection h with h2
       subst h2
       exact ⟨rfl, rfl⟩)
    | simp_all

theorem phaseApply_noHosting_events (fl : Flags) (env : Env) (st : StHosting)
    (hh : fl.includeHosting = false) :
    ∃ t, (phaseApply fl env st).events = st.ev ++ t ∧
      t ⊆ [Event.push st.strategy, Event.exportApp, Event.writeDir] := by
  unfold phaseApply
  rw [hh]
  split
  · refine ⟨[.push st.strategy], rfl, ?_⟩
    intro x hx
    fin_cases hx <;> simp
  · rw [if_neg (by simp)]
    obtain ⟨t, h1, h2⟩ := phaseSync_events env st
      (st.infos ++ ["Importing app...", "Done."]) (st.ev ++ [.push st.strategy])
    refine ⟨[.push st.strategy] ++ t, ?_, ?_⟩
    · rw [h1, List.append_assoc]
    · intro x hx
      rcases List.mem_append.mp hx with hx | hx
      · fin_cases hx <;> simp
      · have hx2 := h2 hx
        fin_cases hx2 <;> simp

theorem phaseHosting_dirty (fl : Flags) (env : Env) (st : StResolve)
    (hh : fl.includeHosting = true) (hd : env.cacheDirty = true)
    (hm : env.localMetaErr = none) :
    (∃ r, phaseHosting fl env st = .inl r ∧
      (r.events = st.ev ∨ r.events = st.ev ++ [.cacheRead])) ∨
    phaseHosting fl env st =
      phaseHostTail env st (st.ev ++ [.cacheRead, .localHash, .cacheWrite]) (cacheWriteUi env) := by
  unfold phaseHosting
  repeat' split
  all_goals first
    | exact Or.inl ⟨_, rfl, Or.inl rfl⟩
    | exact Or.inl ⟨_, rfl, Or.inr rfl⟩
    | exact Or.inr rfl
    | simp_all

theorem phaseHostTail_cases (env : Env) (st : StResolve) (ev2 : List Event) (ui : List String) :
    (∃ r, phaseHostTail env st ev2 ui = .inl r ∧
      r.events = ev2 ++ [.listAssets] ∧ r.uiErrors = ui) ∨
    (∃ st2, phaseHostTail env st ev2 ui = .inr st2 ∧
      st2.ev = ev2 ++ [.listAssets, .assetDiff (st.strategy == importStrategyMerge)] ∧
      st2.uiErrors = ui) := by
  unfold phaseHostTail
  split
  · exact Or.inl ⟨_, rfl, rfl, rfl⟩
  · exact Or.inr ⟨_, rfl, rfl, rfl⟩

theorem sublist_cw_la (l t : List Event) :
    List.Sublist [Event.cacheWrite, Event.listAssets]
      ((l ++ [Event.cacheRead, Event.localHash, Event.cacheWrite]) ++ Event.listAssets :: t) := by
  have h1 : List.Sublist ([] ++ [Event.cacheWrite])
      (l ++ [Event.cacheRead, Event.localHash, Event.cacheWrite]) :=
    List.Sublist.append (List.nil_sublist l) (by decide)
  have h2 : List.Sublist [Event.listAssets] (Event.listAssets :: t) :=
    List.Sublist.cons₂ Event.listAssets (List.nil_sublist t)
  simpa using h1.append h2

/-- C3: when the run computes a diff and the combined diff — remote
configuration diff lines plus, when asset sync is requested, the asset diff
lines — is empty, the run ends successfully with the no-op notice and
performs no push, no asset application, and no post-apply re-sync. -/
theorem c3_empty_diff_noop (fl : Flags) (env : Env)
    (hr : Event.remoteDiff ∈ (importApp fl env).events)
    (hd : env.remoteDiffRes = DiffOutcome.ok [])
    (hl : fl.includeHosting = true → env.assetDiffLines = []) :
    (importApp fl env).ret = none ∧
    noopInfo ∈ (importApp fl env).infos ∧
    (∀ s, Event.push s ∉ (importApp fl env).events) ∧
    Event.applyAssets ∉ (importApp fl env).events ∧
    Event.exportApp ∉ (importApp fl env).events ∧
    Event.writeDir ∉ (importApp fl env).events := by
  cases h1 : phaseResolve fl env with
  | inl r =>
    rw [importApp_eq_resolve_inl h1] at hr
    have hc2 := phaseResolve_inl_events h1 hr
    simp [resolveEvs] at hc2
  | inr st =>
    have hres := phaseResolve_inr_ev h1
    cases h2 : phaseHosting fl env st with
    | inl r =>
      rw [importApp_eq_hosting_inl h1 h2] at hr
      obtain ⟨t, he, hb⟩ := phaseHosting_inl_events h2
      rw [he] at hr
      rcases List.mem_append.mp hr with hm | hm
      · have hc2 := hres hm
        simp [resolveEvs] at hc2
      · have hc2 := hb hm
        simp [hostingEvs] at hc2
    | inr st2 =>
      have hl2 : fl.includeHosting = true → st2.assetDiffs = some [] ∨ st2.assetDiffs = none := by
        intro hInc
        rcases phaseHosting_inr_assetDiffs h2 with h | h
        · refine Or.inl ?_
          rw [h, hl hInc]
        · exact Or.inr h.2.1
      rcases phaseDiff_noop hd hl2 with h3 | h3
      · rw [importApp_eq_apply h1 h2 h3] at hr
        obtain ⟨t, he, hb⟩ := phaseApply_events fl env st2
        rw [he] at hr
        rcases List.mem_append.mp hr with hm | hm
        · have hc2 := preDiff_sub h1 h2 hm
          simp [resolveEvs, hostingEvs] at hc2
        · have hc2 := hb hm
          simp [applyEvs] at hc2
      · rw [importApp_eq_diff_inl h1 h2 h3]
        refine ⟨rfl, by simp, fun s hm => ?_, fun hm => ?_, fun hm => ?_, fun hm => ?_⟩ <;>
          · rcases List.mem_append.mp hm with hm | hm
            · have hc2 := preDiff_sub h1 h2 hm
              simp [resolveEvs, hostingEvs] at hc2
            · simp at hm

/-- Witness for C3 at a concrete input: empty remote diff, no asset sync. -/
theorem c3_witness :
    (importApp flagsBase envC3).ret = none ∧
    noopInfo ∈ (importApp flagsBase envC3).infos ∧
    (∀ s, Event.push s ∉ (importApp flagsBase envC3).events) ∧
    Event.applyAssets ∉ (importApp flagsBase envC3).events ∧
    Event.exportApp ∉ (importApp flagsBase envC3).events ∧
    Event.writeDir ∉ (importApp flagsBase envC3).events :=
  c3_empty_diff_noop flagsBase envC3 (by decide) rfl (by decide)

/-- C4: a strategy flag value that is neither `merge` nor `replace` makes the
command report the validation error and exit with code 1 before any import
work (the event trace is empty: no login check, no declaration load, no
remote call); any accepted value proceeds into `importApp`, whose `nil` or
error return maps to exit code 0 or 1; and an omitted flag defaults to
`merge`. -/
theorem c4_strategy_validation :
    (∀ (fl : Flags) (env : Env), fl.strategy ≠ importStrategyMerge →
      fl.strategy ≠ importStrategyReplace →
      Run fl none env = (1, ⟨none, [], [], [strategyErrMsg fl.strategy], none⟩)) ∧
    (∀ (fl : Flags) (env : Env),
      fl.strategy = importStrategyMerge ∨ fl.strategy = importStrategyReplace →
      (Run fl none env).2.events = (importApp fl env).events ∧
      ((importApp fl env).ret = none → (Run fl none env).1 = 0) ∧
      ((importApp fl env).ret ≠ none → (Run fl none env).1 = 1)) ∧
    parseStrategy none = importStrategyMerge := by
  refine ⟨fun fl env h1 h2 => ?_, fun fl env hv => ?_, rfl⟩
  · unfold Run
    dsimp only
    rw [if_pos ⟨h1, h2⟩]
  · have hneg : ¬(fl.strategy ≠ importStrategyMerge ∧ fl.strategy ≠ importStrategyReplace) := by
      rintro ⟨ha, hb⟩
      rcases hv with hv | hv
      · exact ha hv
      · exact hb hv
    unfold Run
    dsimp only
    rw [if_neg hneg]
    cases hret : (importApp fl env).ret with
    | none => exact ⟨rfl, fun _ => rfl, fun hn => absurd rfl hn⟩
    | some e => exact ⟨rfl, fun h => Option.noConfusion h, fun _ => rfl⟩

/-- Witness for C4 at concrete inputs: a rejected strategy and an accepted
one. -/
theorem c4_witness :
    Run { flagsBase with strategy := "overwrite" } none envBase =
      (1, ⟨none, [], [], [strategyErrMsg "overwrite"], none⟩) ∧
    (Run flagsBase none envBase).2.events = (importApp flagsBase envBase).events :=
  ⟨c4_strategy_validation.1 { flagsBase with strategy := "overwrite" } envBase
      (by decide) (by decide),
   (c4_strategy_validation.2.1 flagsBase envBase (Or.inl rfl)).1⟩

/-- C5: when the configuration push fails, the run returns the wrapping
`failed to import app` error and nothing further happens: no asset
application, no post-apply export, no local write-back. -/
theorem c5_push_failure_aborts (fl : Flags) (env : Env) (e : String)
    (hp : ∃ s, Event.push s ∈ (importApp fl env).events)
    (hi : env.importErr = some e) :
    (importApp fl env).ret = some (.importFailure e) ∧
    message (ImportError.importFailure e) = "failed to import app: " ++ e ∧
    Event.applyAssets ∉ (importApp fl env).events ∧
    Event.exportApp ∉ (importApp fl env).events ∧
    Event.writeDir ∉ (importApp fl env).events := by
  obtain ⟨s, hp⟩ := hp
  cases h1 : phaseResolve fl env with
  | inl r =>
    rw [importApp_eq_resolve_inl h1] at hp
    have hc2 := phaseResolve_inl_events h1 hp
    simp [resolveEvs] at hc2
  | inr st =>
    cases h2 : phaseHosting fl env st with
    | inl r =>
      rw [importApp_eq_hosting_inl h1 h2] at hp
      obtain ⟨t, he, hb⟩ := phaseHosting_inl_events h2
      rw [he] at hp
      rcases List.mem_append.mp hp with hm | hm
      · have hc2 := phaseResolve_inr_ev h1 hm
        simp [resolveEvs] at hc2
      · have hc2 := hb hm
        simp [hostingEvs] at hc2
    | inr st2 =>
      cases h3 : phaseDiff fl env st2 with
      | inl r =>
        rw [importApp_eq_diff_inl h1 h2 h3] at hp
        obtain ⟨t, he, hb⟩ := phaseDiff_inl_events h3
        rw [he] at hp
        rcases List.mem_append.mp hp with hm | hm
        · have hc2 := preDiff_sub h1 h2 hm
          simp [resolveEvs, hostingEvs] at hc2
        · have hc2 := hb hm
          simp [diffEvs] at hc2
      | inr st3 =>
        rw [importApp_eq_apply h1 h2 h3]
        rw [phaseApply_importFailure hi]
        have hpre := preApply_sub h1 h2 h3
        refine ⟨rfl, rfl, fun hm => ?_, fun hm => ?_, fun hm => ?_⟩ <;>
          · rcases List.mem_append.mp hm with hm | hm
            · have hc2 := hpre hm
              simp [resolveEvs, hostingEvs, diffEvs] at hc2
            · simp at hm

/-- Witness for C5 at a concrete input: the push fails. -/
theorem c5_witness :
    (importApp flagsBase envC5).ret = some (.importFailure "connection reset") ∧
    message (ImportError.importFailure "connection reset") =
      "failed to import app: " ++ "connection reset" ∧
    Event.applyAssets ∉ (importApp flagsBase envC5).events ∧
    Event.exportApp ∉ (importApp flagsBase envC5).events ∧
    Event.writeDir ∉ (importApp flagsBase envC5).events :=
  c5_push_failure_aborts flagsBase envC5 "connection reset" ⟨"merge", by decide⟩ rfl

/-- C6: when the push succeeded but the post-apply export or the local
write-back fails, the run returns the distinct sync-failure error, whose
message differs from every apply-failure message (both the push wrapper and
the hosting-assets wrapper). -/
theorem c6_sync_failure_distinct (fl : Flags) (env : Env) (e : String)
    (hx : Event.exportApp ∈ (importApp fl env).events)
    (hs : env.exportErr = some e ∨ (env.exportErr = none ∧ env.writeDirErr = some e)) :
    (importApp fl env).ret = some (.importAppSyncFailure e) ∧
    (∀ t, message (ImportError.importAppSyncFailure e) ≠
      message (ImportError.importFailure t)) ∧
    (∀ t, message (ImportError.importAppSyncFailure e) ≠
      message (ImportError.importHostingFailure t)) := by
  refine ⟨?_, message_sync_ne_importFailure e, message_sync_ne_importHostingFailure e⟩
  cases h1 : phaseResolve fl env with
  | inl r =>
    rw [importApp_eq_resolve_inl h1] at hx
    have hc2 := phaseResolve_inl_events h1 hx
    simp [resolveEvs] at hc2
  | inr st =>
    cases h2 : phaseHosting fl env st with
    | inl r =>
      rw [importApp_eq_hosting_inl h1 h2] at hx
      obtain ⟨t, he, hb⟩ := phaseHosting_inl_events h2
      rw [he] at hx
      rcases List.mem_append.mp hx with hm | hm
      · have hc2 := phaseResolve_inr_ev h1 hm
        simp [resolveEvs] at hc2
      · have hc2 := hb hm
        simp [hostingEvs] at hc2
    | inr st2 =>
      cases h3 : phaseDiff fl env st2 with
      | inl r =>
        rw [importApp_eq_diff_inl h1 h2 h3] at hx
        obtain ⟨t, he, hb⟩ := phaseDiff_inl_events h3
        rw [he] at hx
        rcases List.mem_append.mp hx with hm | hm
        · have hc2 := preDiff_sub h1 h2 hm
          simp [resolveEvs, hostingEvs] at hc2
        · have hc2 := hb hm
          simp [diffEvs] at hc2
      | inr st3 =>
        rw [importApp_eq_apply h1 h2 h3] at hx ⊢
        have hpre := preApply_sub h1 h2 h3
        rcases phaseApply_cases fl env st3 with ⟨e2, hi, heq⟩ | ⟨e2, hi, heq⟩ |
            ⟨infos2, ev2, heq, hev⟩
        · rw [heq] at hx
          rcases List.mem_append.mp hx with hm | hm
          · have hc2 := hpre hm
            simp [resolveEvs, hostingEvs, diffEvs] at hc2
          · simp at hm
        · rw [heq] at hx
          rcases List.mem_append.mp hx with hm | hm
          · have hc2 := hpre hm
            simp [resolveEvs, hostingEvs, diffEvs] at hc2
          · simp at hm
        · rw [heq]
          rcases hs with hs | ⟨hs1, hs2⟩
          · rw [phaseSync_exportFailure hs]
          · rw [phaseSync_writeDirFailure hs1 hs2]

/-- Witness for C6 at a concrete input: the post-apply export fails. -/
theorem c6_witness :
    (importApp flagsBase envC6).ret = some (.importAppSyncFailure "export timed out") ∧
    (∀ t, message (ImportError.importAppSyncFailure "export timed out") ≠
      message (ImportError.importFailure t)) ∧
    (∀ t, message (ImportError.importAppSyncFailure "export timed out") ≠
      message (ImportError.importHostingFailure t)) :=
  c6_sync_failure_distinct flagsBase envC6 "export timed out" (by decide) (Or.inl rfl)

/-- C7: with asset sync requested and a dirty cache after local hashing, the
cache write happens immediately — before the remote asset listing, witnessed
by the `[cacheWrite, listAssets]` subsequence of the trace — and a failing
cache write is only reported to `UI.Error`: the returned error and the whole
event trace are the same as in the run whose cache write succeeds. -/
theorem c7_dirty_cache_persisted (fl : Flags) (env : Env) (e : String)
    (hh : fl.includeHosting = true) (hd : env.cacheDirty = true)
    (hm : env.localMetaErr = none)
    (hl : Event.localHash ∈ (importApp fl env).events)
    (hw : env.cacheWriteErr = some e) :
    List.Sublist [Event.cacheWrite, Event.listAssets] (importApp fl env).events ∧
    e ∈ (importApp fl env).uiErrors ∧
    (importApp fl env).ret = (importApp fl { env with cacheWriteErr := none }).ret ∧
    (importApp fl env).events = (importApp fl { env with cacheWriteErr := none }).events := by
  obtain ⟨f1, f2, _⟩ := importApp_cacheWrite_frame fl env
  refine ⟨?_, ?_, f1.symm, f2.symm⟩ <;>
  · cases h1 : phaseResolve fl env with
    | inl r =>
      rw [importApp_eq_resolve_inl h1] at hl
      have hc2 := phaseResolve_inl_events h1 hl
      simp [resolveEvs] at hc2
    | inr st =>
      rcases phaseHosting_dirty fl env st hh hd hm with ⟨r, h2, hre⟩ | h2
      · exfalso
        rw [importApp_eq_hosting_inl h1 h2] at hl
        have hres := phaseResolve_inr_ev h1
        rcases hre with hre | hre <;> rw [hre] at hl
        · have hc2 := hres hl
          simp [resolveEvs] at hc2
        · rcases List.mem_append.mp hl with hm2 | hm2
          · have hc2 := hres hm2
            simp [resolveEvs] at hc2
          · simp at hm2
      · rcases phaseHostTail_cases env st (st.ev ++ [.cacheRead, .localHash, .cacheWrite])
            (cacheWriteUi env) with ⟨r, ht, hev, hui⟩ | ⟨st2, ht, hev, hui⟩
        · have h2i : phaseHosting fl env st = .inl r := by rw [h2, ht]
          rw [importApp_eq_hosting_inl h1 h2i]
          first
            | (rw [hev]
               exact sublist_cw_la st.ev [])
            | (rw [hui]
               simp [cacheWriteUi, hw])
        · have h2i : phaseHosting fl env st = .inr st2 := by rw [h2, ht]
          have hsub : List.Sublist [Event.cacheWrite, Event.listAssets] st2.ev := by
            rw [hev]
            exact sublist_cw_la st.ev [.assetDiff (st.strategy == importStrategyMerge)]
          have huie : e ∈ st2.uiErrors := by
            rw [hui]
            simp [cacheWriteUi, hw]
          cases h3 : phaseDiff fl env st2 with
          | inl r =>
            rw [importApp_eq_diff_inl h1 h2i h3]
            obtain ⟨t3, he3, hb3⟩ := phaseDiff_inl_events h3
            obtain ⟨hui3, _⟩ := phaseDiff_inl_fields h3
            first
              | (rw [he3]
                 exact hsub.trans (List.sublist_append_left _ _))
              | (rw [hui3]
                 exact huie)
          | inr st3 =>
            rw [importApp_eq_apply h1 h2i h3]
            obtain ⟨t3, he3, hb3⟩ := phaseDiff_inr_ev h3
            obtain ⟨tA, heA, hbA⟩ := phaseApply_events fl env st3
            have hD := phaseDiff_inr_fields h3
            first
              | (rw [heA, he3]
                 exact (hsub.trans (List.sublist_append_left _ _)).trans
                   (List.sublist_append_left _ _))
              | (rw [(phaseApply_fields fl env st3).1, hD.2.2.2.2]
                 exact huie)

/-- Witness for C7 at a concrete input: dirty cache, failing cache write. -/
theorem c7_witness :
    List.Sublist [Event.cacheWrite, Event.listAssets] (importApp flagsHosting envC7).events ∧
    "disk full" ∈ (importApp flagsHosting envC7).uiErrors ∧
    (importApp flagsHosting envC7).ret =
      (importApp flagsHosting { envC7 with cacheWriteErr := none }).ret ∧
    (importApp flagsHosting envC7).events =
      (importApp flagsHosting { envC7 with cacheWriteErr := none }).events :=
  c7_dirty_cache_persisted flagsHosting envC7 "disk full" rfl rfl rfl (by decide) rfl

/-- C8: when decoding the local declaration directory fails, the run aborts
with that error and no remote mutation has been issued: no application
creation, no push, no asset application. -/
theorem c8_malformed_declaration (fl : Flags) (env : Env) (e : String)
    (hu : env.unmarshalErr = some e)
    (hl : Event.loadDecl ∈ (importApp fl env).events) :
    (importApp fl env).ret = some (.unmarshalFailure e) ∧
    Event.createApp ∉ (importApp fl env).events ∧
    (∀ s, Event.push s ∉ (importApp fl env).events) ∧
    Event.applyAssets ∉ (importApp fl env).events := by
  cases h1 : phaseResolve fl env with
  | inr st => exact absurd h1 (fun h => phaseResolve_unmarshal_no_inr hu h)
  | inl r =>
    rw [importApp_eq_resolve_inl h1] at hl ⊢
    have hr := phaseResolve_unmarshal_inl hu h1 hl
    subst hr
    refine ⟨rfl, by simp, fun s hm => by simp at hm, by simp⟩

/-- Witness for C8 at a concrete input: malformed local declaration. -/
theorem c8_witness :
    (importApp flagsBase envC8).ret = some (.unmarshalFailure "malformed declaration") ∧
    Event.createApp ∉ (importApp flagsBase envC8).events ∧
    (∀ s, Event.push s ∉ (importApp flagsBase envC8).events) ∧
    Event.applyAssets ∉ (importApp flagsBase envC8).events :=
  c8_malformed_declaration flagsBase envC8 "malformed declaration" rfl (by decide)

/-- C9: when the user declines an interactive prompt — the create-new-app
question after a not-found lookup, or the diff confirmation — the process
exits with code 0 even though nothing was imported. -/
theorem c9_decline_exits_zero (fl : Flags) (env : Env) :
    ((Event.askCreate ∈ (Run fl none env).2.events ∧
        env.createFlow = CreateFlow.declined) → (Run fl none env).1 = 0) ∧
    ((Event.askConfirm ∈ (Run fl none env).2.events ∧
        env.confirmAns = ConfirmOutcome.answered false) → (Run fl none env).1 = 0) := by
  constructor
  · rintro ⟨ha, hd⟩
    rcases Run_cases fl env with ⟨_, _, hrun⟩ | ⟨hev, h0, _⟩
    · rw [hrun] at ha
      simp at ha
    · rw [hev] at ha
      exact h0 (create_decline_ret fl env hd ha)
  · rintro ⟨ha, hc⟩
    rcases Run_cases fl env with ⟨_, _, hrun⟩ | ⟨hev, h0, _⟩
    · rw [hrun] at ha
      simp at ha
    · rw [hev] at ha
      exact h0 (confirm_decline_core fl env hc ha).1

/-- Witness for C9 at concrete inputs: declined creation, declined diff. -/
theorem c9_witness :
    (Run flagsBase none envC9).1 = 0 ∧ (Run flagsBase none envC2).1 = 0 :=
  ⟨(c9_decline_exits_zero flagsBase envC9).1 ⟨by decide, rfl⟩,
   (c9_decline_exits_zero flagsBase envC2).2 ⟨by decide, rfl⟩⟩

/-- C10: when asset sync is not requested, no asset-related step happens: the
cache is never read or written, no local hashing, no remote asset listing,
no asset diff, no asset application, and `assetMetadataDiffs` stays `nil`. -/
theorem c10_no_hosting_frame (fl : Flags) (env : Env)
    (hh : fl.includeHosting = false) :
    Event.cacheRead ∉ (importApp fl env).events ∧
    Event.localHash ∉ (importApp fl env).events ∧
    Event.cacheWrite ∉ (importApp fl env).events ∧
    Event.listAssets ∉ (importApp fl env).events ∧
    (∀ b, Event.assetDiff b ∉ (importApp fl env).events) ∧
    Event.applyAssets ∉ (importApp fl env).events ∧
    (importApp fl env).assetDiffs = none := by
  cases h1 : phaseResolve fl env with
  | inl r =>
    rw [importApp_eq_resolve_inl h1]
    have hb := phaseResolve_inl_events h1
    refine ⟨?_, ?_, ?_, ?_, fun b => ?_, ?_, phaseResolve_inl_assetDiffs h1⟩ <;>
      · intro hm2
        have hc2 := hb hm2
        simp [resolveEvs] at hc2
  | inr st =>
    have hres := phaseResolve_inr_ev h1
    cases h2 : phaseHosting fl env st with
    | inl r =>
      rw [importApp_eq_hosting_inl h1 h2]
      obtain ⟨hev2, hAD2⟩ := phaseHosting_noHosting_inl hh h2
      refine ⟨?_, ?_, ?_, ?_, fun b => ?_, ?_, hAD2⟩ <;>
        · intro hm2
          rw [hev2] at hm2
          have hc2 := hres hm2
          simp [resolveEvs] at hc2
    | inr st2 =>
      obtain ⟨hev2, hAD2⟩ := phaseHosting_noHosting_inr hh h2
      have hsub2 : st2.ev ⊆ resolveEvs := by
        rw [hev2]
        exact hres
      cases h3 : phaseDiff fl env st2 with
      | inl r =>
        rw [importApp_eq_diff_inl h1 h2 h3]
        obtain ⟨t3, he3, hb3⟩ := phaseDiff_inl_events h3
        obtain ⟨_, hADr⟩ := phaseDiff_inl_fields h3
        refine ⟨?_, ?_, ?_, ?_, fun b => ?_, ?_, by rw [hADr, hAD2]⟩ <;>
          · intro hm2
            rw [he3] at hm2
            rcases List.mem_append.mp hm2 with hm2 | hm2
            · have hc2 := hsub2 hm2
              simp [resolveEvs] at hc2
            · have hc2 := hb3 hm2
              simp [diffEvs] at hc2
      | inr st3 =>
        rw [importApp_eq_apply h1 h2 h3]
        obtain ⟨t3, he3, hb3⟩ := phaseDiff_inr_ev h3
        obtain ⟨tA, heA, hbA⟩ := phaseApply_noHosting_events fl env st3 hh
        have hD := phaseDiff_inr_fields h3
        have hADa : (phaseApply fl env st3).assetDiffs = none := by
          rw [(phaseApply_fields fl env st3).2, hD.2.2.2.1, hAD2]
        refine ⟨?_, ?_, ?_, ?_, fun b => ?_, ?_, hADa⟩ <;>
          · intro hm2
            rw [heA, he3] at hm2
            simp only [List.append_assoc, List.mem_append] at hm2
            rcases hm2 with hm2 | hm2 | hm2
            · have hc2 := hsub2 hm2
              simp [resolveEvs] at hc2
            · have hc2 := hb3 hm2
              simp [diffEvs] at hc2
            · have hc2 := hbA hm2
              simp at hc2

/-- Witness for C10 at a concrete input: hosting not requested. -/
theorem c10_witness :
    Event.cacheRead ∉ (importApp flagsBase envBase).events ∧
    Event.localHash ∉ (importApp flagsBase envBase).events ∧
    Event.cacheWrite ∉ (importApp flagsBase envBase).events ∧
    Event.listAssets ∉ (importApp flagsBase envBase).events ∧
    (∀ b, Event.assetDiff b ∉ (importApp flagsBase envBase).events) ∧
    Event.applyAssets ∉ (importApp flagsBase envBase).events ∧
    (importApp flagsBase envBase).assetDiffs = none :=
  c10_no_hosting_frame flagsBase envBase rfl

end Stitch
